import Mathlib

/-!
Shallow embedding of the real-time EEG spectral classification pipeline
(`cognitive_state_monitor.py`, `alertness_monitor.py`, `eeg_analyzer.py`).

Conventions of the embedding:
* Python floats are modelled as exact rationals (`ℚ`); every property checked
  here concerns strict comparisons, exact zero tests, and structural data flow,
  all of which are robust under this idealisation.
* A numpy operation that yields a non-finite float (`inf` / `nan`, e.g. an
  unguarded division by zero or the mean of an empty slice) is modelled as
  `Option.none`: the value is not any finite rational, in particular not `0`.
* The fixed five-band dictionary `{Delta, Theta, Alpha, Beta, Gamma}` is
  modelled as a structure with one field per band.
* Python exceptions are modelled with `Except`; the message string is a fixed
  tag standing for `str(e)` of the concrete exception.
-/

namespace Cognition

/-! ## Definitions -/

/-- The five-band power dictionary `band_powers` used throughout the monitors
(`freq_bands` has exactly the keys Delta, Theta, Alpha, Beta, Gamma). -/
structure BandPowers where
  delta : ℚ
  theta : ℚ
  alpha : ℚ
  beta  : ℚ
  gamma : ℚ
deriving DecidableEq, Repr

/-- `total_power = sum(band_powers.values())` in `analyze_cognitive_state`. -/
def BandPowers.total (bp : BandPowers) : ℚ :=
  bp.delta + bp.theta + bp.alpha + bp.beta + bp.gamma

/-- Pointwise addition of band-power maps (the `avg_powers[band] += power`
accumulation loop in `get_current_state`). -/
def BandPowers.add (a b : BandPowers) : BandPowers :=
  ⟨a.delta + b.delta, a.theta + b.theta, a.alpha + b.alpha,
   a.beta + b.beta, a.gamma + b.gamma⟩

/-- `relative_powers`: each band divided by the total when `total_power > 0`,
otherwise `0` for every band (`cognitive_state_monitor.py` lines 63-67). -/
def relativePowers (bp : BandPowers) : BandPowers :=
  if 0 < bp.total then
    ⟨bp.delta / bp.total, bp.theta / bp.total, bp.alpha / bp.total,
     bp.beta / bp.total, bp.gamma / bp.total⟩
  else ⟨0, 0, 0, 0, 0⟩

/-- `theta_beta_ratio = Theta / Beta if Beta > 0 else 0`
(`cognitive_state_monitor.py` line 70). -/
def thetaBetaRatio (bp : BandPowers) : ℚ :=
  if 0 < bp.beta then bp.theta / bp.beta else 0

/-- `alpha_beta_ratio = Alpha / Beta if Beta > 0 else 0`
(`cognitive_state_monitor.py` line 71). -/
def alphaBetaRatio (bp : BandPowers) : ℚ :=
  if 0 < bp.beta then bp.alpha / bp.beta else 0

/-- The unguarded numpy float division used by
`EEGAnalyzer.compute_band_powers` (lines 70-93) for its ratio entries:
dividing by zero does not raise (numpy emits a warning) but produces a
non-finite value (`inf`, `-inf` or `nan`), modelled as `none`; a nonzero
denominator gives the exact quotient. -/
def npDivRatio (num den : ℚ) : Option ℚ :=
  if den = 0 then none else some (num / den)

/-- `band_powers['Alpha/Theta Ratio']` in `EEGAnalyzer.compute_band_powers`. -/
def eegAlphaThetaRatio (bp : BandPowers) : Option ℚ := npDivRatio bp.alpha bp.theta

/-- `band_powers['Alpha/Beta Ratio']` in `EEGAnalyzer.compute_band_powers`. -/
def eegAlphaBetaRatio (bp : BandPowers) : Option ℚ := npDivRatio bp.alpha bp.beta

/-- `band_powers['Theta/Beta Ratio']` in `EEGAnalyzer.compute_band_powers`. -/
def eegThetaBetaRatio (bp : BandPowers) : Option ℚ := npDivRatio bp.theta bp.beta

/-- `band_powers['Delta/Theta Ratio']` in `EEGAnalyzer.compute_band_powers`. -/
def eegDeltaThetaRatio (bp : BandPowers) : Option ℚ := npDivRatio bp.delta bp.theta

/-- `band_powers['Gamma/Alpha Ratio']` in `EEGAnalyzer.compute_band_powers`. -/
def eegGammaAlphaRatio (bp : BandPowers) : Option ℚ := npDivRatio bp.gamma bp.alpha

/-- The `details` dictionary of a classification result: either the metric
record `{theta_beta_ratio, alpha_beta_ratio, relative_powers}` of a normal
tick, or `{error: str(e)}` of the exception path. -/
inductive Details where
  | metrics (thetaBeta alphaBeta : ℚ) (rel : BandPowers)
  | errMsg (msg : String)
deriving DecidableEq, Repr

/-- The `state_info` dictionary returned by
`CognitiveStateMonitor.analyze_cognitive_state` / `get_current_state`. -/
structure StateInfo where
  state : String
  alert_level : Nat
  details : Details
deriving DecidableEq, Repr

/-- `CognitiveStateMonitor.analyze_cognitive_state` (lines 62-104): the
primary rule cascade, evaluated top-to-bottom, first match wins; the Python
code initialises `state_info` to NORMAL / level 2 and overwrites it in the
matching branch, which is the same function. -/
def analyzeCognitiveState (bp : BandPowers) : StateInfo :=
  let rp := relativePowers bp
  let tbr := thetaBetaRatio bp
  let abr := alphaBetaRatio bp
  let d := Details.metrics tbr abr rp
  if tbr > (5 : ℚ) / 2 then ⟨"DROWSY", 1, d⟩
  else if rp.delta > (2 : ℚ) / 5 then ⟨"MICROSLEEP", 1, d⟩
  else if rp.beta > (3 : ℚ) / 10 ∧ rp.gamma > (3 : ℚ) / 20 then ⟨"HIGHLY_ALERT", 3, d⟩
  else if rp.beta > (1 : ℚ) / 4 then ⟨"ALERT", 3, d⟩
  else if (3 : ℚ) / 5 < abr ∧ abr < (3 : ℚ) / 2 then ⟨"RELAXED", 2, d⟩
  else ⟨"NORMAL", 2, d⟩

/-! ## Ring buffer (`update_buffer`, `cognitive_state_monitor.py` lines 106-110)

The buffer is `self.eeg_buffer`, a `channel_count × buffer_size` array, one row
per channel; a chunk is a list of samples, each a list of per-channel values.
`update_buffer` does, for a non-empty chunk of `n` samples:
`np.roll(buffer, -n, axis=1)` (cyclically rotate every row left by
`n mod width`), then `buffer[:, -n:] = chunk.T`.  The numpy assignment
succeeds when the chunk fits (`n ≤ width`) and its channel count equals the
buffer's row count, or equals 1 (numpy broadcasts a single-channel chunk
across all rows); otherwise it raises a broadcast `ValueError` — but only
after the roll has already replaced the buffer, so the rolled buffer survives
the exception.  The `Bool` component is `true` on success and `false` when
the assignment raises. -/

/-- `np.roll(row, -n)`: cyclic left rotation by `n mod length`. -/
def rotl (n : Nat) (l : List ℚ) : List ℚ :=
  l.drop (n % l.length) ++ l.take (n % l.length)

/-- Row `i` of `chunk.T`: the `i`-th value of every sample. -/
def chunkColumn (chunk : List (List ℚ)) (i : Nat) : List ℚ :=
  chunk.map (fun s => s.getD i 0)

/-- The numpy slice assignment `buffer[:, -n:] = chunk.T`, row by row: row `i`
keeps its first `length - n` entries and receives column `i` of the chunk
(column 0 for every row when numpy broadcasts a single-channel chunk). -/
def assignRows (n : Nat) (chunk : List (List ℚ)) (broadcast : Bool) :
    Nat → List (List ℚ) → List (List ℚ)
  | _, [] => []
  | i, row :: rest =>
      (row.take (row.length - n) ++ chunkColumn chunk (if broadcast then 0 else i))
        :: assignRows n chunk broadcast (i + 1) rest

/-- `CognitiveStateMonitor.update_buffer`.  Returns the buffer contents after
the call together with `true` if the call returned normally and `false` if
the numpy assignment raised a broadcast error (in which case the returned
buffer is the already-rolled one). -/
def updateBuffer (buf chunk : List (List ℚ)) : List (List ℚ) × Bool :=
  if chunk.length = 0 ∨ (chunk.headD []).length = 0 then (buf, true)
  else if chunk.length ≤ (buf.headD []).length then
    if (chunk.headD []).length = buf.length then
      (assignRows chunk.length chunk false 0 (buf.map (rotl chunk.length)), true)
    else if (chunk.headD []).length = 1 then
      (assignRows chunk.length chunk true 0 (buf.map (rotl chunk.length)), true)
    else (buf.map (rotl chunk.length), false)
  else (buf.map (rotl chunk.length), false)

/-- Well-formedness of `self.eeg_buffer`: one row per channel, each row of
length `buffer_size` (the capacity). -/
def wfBuffer (ch cap : Nat) (buf : List (List ℚ)) : Prop :=
  buf.length = ch ∧ ∀ row ∈ buf, row.length = cap

/-- A sequence of `update_buffer` calls, keeping the buffer contents that
survive each call (also when the numpy assignment raised). -/
def applyChunks (buf : List (List ℚ)) (chunks : List (List (List ℚ))) :
    List (List ℚ) :=
  chunks.foldl (fun b c => (updateBuffer b c).1) buf

/-! ## Spectral band extraction (`compute_band_powers`)

`compute_band_powers` windows the data, takes the real FFT's squared
magnitudes (`power_spectrum`, one non-negative float per frequency bin in
`self.frequencies`), and then per band selects the bins whose frequency lies
in the closed interval and takes `np.mean` of the selected powers.  The
windowing/FFT step is floating-point numerics whose output enters the band
extraction only as the list of per-bin powers, so the extraction step is
embedded exactly, parameterised by that list (which always has the same
length as `self.frequencies`). -/

/-- `np.mean` of a float list: the arithmetic mean for a non-empty list; for
an empty list numpy emits a `Mean of empty slice` warning and yields `nan`,
modelled as `none`. -/
def npMean (xs : List ℚ) : Option ℚ :=
  if xs = [] then none else some (xs.sum / xs.length)

/-- `power_spectrum[freq_mask]`: the per-bin powers whose frequency satisfies
`low ≤ f` and `f ≤ high` (both masks are over `self.frequencies`). -/
def selectByBand (freqs ps : List ℚ) (lo hi : ℚ) : List ℚ :=
  ((freqs.zip ps).filter (fun p => decide (lo ≤ p.1) && decide (p.1 ≤ hi))).map
    Prod.snd

/-- One entry of `band_powers`:
`np.mean(power_spectrum[freq_mask])` for the band `(lo, hi)`. -/
def bandPowerOf (freqs ps : List ℚ) (lo hi : ℚ) : Option ℚ :=
  npMean (selectByBand freqs ps lo hi)

/-- `np.fft.rfftfreq(nfft, d=1/fs)`: the `nfft/2 + 1` bin frequencies
`k * fs / nfft`. -/
def rfftFreqs (nfft fs : Nat) : List ℚ :=
  (List.range (nfft / 2 + 1)).map (fun k : Nat => (k : ℚ) * (fs : ℚ) / (nfft : ℚ))

/-! ## Temporal smoother (`get_smoothed_state`, lines 112-122)

`get_smoothed_state` appends the raw label to `self.state_history`, pops the
oldest entry when the window (`self.avg_window = 5`) is exceeded, and then
computes `max(set(self.state_history), key=self.state_history.count)`.
Python's `max` keeps the first element of the iteration whose key is maximal,
and it iterates over a `set`, whose iteration order over strings depends on
the per-process hash seed; the embedding therefore takes that incidental
iteration order as an explicit parameter `order` (a list of the distinct
labels in the set). -/

/-- `self.avg_window` (set to 5 in the constructor and never changed). -/
def avgWindow : Nat := 5

/-- `max(iterable, key=hist.count)`: first element of `order` with maximal
count in `hist` (a later element replaces the running best only on a strictly
larger key).  Python raises on an empty iterable; the history is non-empty at
every call site, so the `[]` case (modelled as `""`) is never reached. -/
def pyMaxByCount (order : List String) (hist : List String) : String :=
  match order with
  | [] => ""
  | x :: xs => xs.foldl (fun best y => if hist.count best < hist.count y then y else best) x

/-- `CognitiveStateMonitor.get_smoothed_state`: push the raw label, trim the
history to the window, and overwrite only the `state` field of the result
with the majority-vote label; `alert_level` and `details` are left as the raw
classification produced them. -/
def getSmoothedState (order : List String) (history : List String)
    (cur : StateInfo) : List String × StateInfo :=
  let h0 := history ++ [cur.state]
  let h := if avgWindow < h0.length then h0.tail else h0
  (h, { cur with state := pyMaxByCount order h })

/-! ## Pipeline tick (`get_current_state`, lines 124-166)

The per-tick state of the monitor object, and the body of `get_current_state`
with its `try/except`.  The pull from the inlet is passed in as an `Except`
(a lower-level I/O fault surfaces as an exception from `pull_chunk`).  The
per-channel spectral estimate is passed as the function `bpFn` (its
floating-point internals do not matter to any claim about this method), and
the incidental set iteration order of the smoother as `order`. -/

/-- The mutable fields of `CognitiveStateMonitor` that `get_current_state`
reads or writes. -/
structure Monitor where
  channelCount : Nat
  buffer : List (List ℚ)
  lastUpdate : ℚ
  history : List String
  connected : Bool
deriving DecidableEq

/-- `self.update_interval` (3 seconds). -/
def updateInterval : ℚ := 3

/-- Tag standing for the `str(e)` of the numpy broadcast `ValueError` raised
by a shape-mismatched chunk assignment. -/
def broadcastErrorMsg : String := "could not broadcast input array"

/-- Tag standing for the `str(e)` of the `ZeroDivisionError` raised when
`channel_count - 1 == 0` in the averaging step. -/
def divZeroMsg : String := "division by zero"

/-- The averaging loop of `get_current_state` (lines 139-145): sum the band
powers of channels `0 .. channel_count - 2` (the last channel, AUX, is
excluded) and divide by `channel_count - 1`. -/
def averageBandPowers (bpFn : List ℚ → BandPowers) (buffer : List (List ℚ))
    (nCh : Nat) : BandPowers :=
  let s : BandPowers := (List.range (nCh - 1)).foldl
    (fun (acc : BandPowers) i => acc.add (bpFn (buffer.getD i []))) ⟨0, 0, 0, 0, 0⟩
  ⟨s.delta / (nCh - 1 : Nat), s.theta / (nCh - 1 : Nat), s.alpha / (nCh - 1 : Nat),
   s.beta / (nCh - 1 : Nat), s.gamma / (nCh - 1 : Nat)⟩

/-- The `try` body of `get_current_state` once the pull has produced a chunk:
an uncaught Python exception is modelled as `Except.error`, carrying the
monitor state as already mutated when the exception was raised (the roll of
`update_buffer` precedes the failing numpy assignment). -/
def tickBody (bpFn : List ℚ → BandPowers) (order : List String) (st : Monitor)
    (chunk : List (List ℚ)) (now : ℚ) :
    Except (Monitor × String) (Monitor × Option StateInfo) :=
  if chunk.isEmpty then .ok (st, none)
  else
    let res := updateBuffer st.buffer chunk
    let st1 : Monitor := { st with buffer := res.1 }
    if res.2 = false then .error (st1, broadcastErrorMsg)
    else if updateInterval ≤ now - st.lastUpdate then
      if st.channelCount - 1 = 0 then .error (st1, divZeroMsg)
      else
        let avg := averageBandPowers bpFn st1.buffer st.channelCount
        let cur := analyzeCognitiveState avg
        let sm := getSmoothedState order st1.history cur
        .ok ({ st1 with history := sm.1, lastUpdate := now }, some sm.2)
    else .ok (st1, none)

/-- `CognitiveStateMonitor.get_current_state`: pull, run the body, and catch
any exception, converting it into the sentinel ERROR result with alert level
1 and clearing the connectivity flag.  Returns the monitor state after the
call and the value returned (`none` models Python's `None`). -/
def getCurrentState (bpFn : List ℚ → BandPowers) (order : List String)
    (st : Monitor) (pull : Except String (List (List ℚ))) (now : ℚ) :
    Monitor × Option StateInfo :=
  match pull with
  | .error e => ({ st with connected := false }, some ⟨"ERROR", 1, .errMsg e⟩)
  | .ok chunk =>
    match tickBody bpFn order st chunk now with
    | .ok r => r
    | .error (st2, e) => ({ st2 with connected := false }, some ⟨"ERROR", 1, .errMsg e⟩)

/-- `CognitiveStateMonitor.is_device_connected`. -/
def isDeviceConnected (st : Monitor) : Bool := st.connected

/-! ## Helper lemmas -/

theorem length_rotl (n : Nat) (l : List ℚ) : (rotl n l).length = l.length := by
  simp [rotl]
  omega

theorem length_chunkColumn (chunk : List (List ℚ)) (i : Nat) :
    (chunkColumn chunk i).length = chunk.length := by
  simp [chunkColumn]

theorem length_assignRows (n : Nat) (chunk : List (List ℚ)) (b : Bool) :
    ∀ (rows : List (List ℚ)) (i : Nat),
      (assignRows n chunk b i rows).length = rows.length := by
  intro rows
  induction rows with
  | nil => intro i; rfl
  | cons r rest ih => intro i; simp [assignRows, ih]

theorem assignRows_row_length (n cap : Nat) (chunk : List (List ℚ)) (b : Bool)
    (hn : n ≤ cap) (hc : chunk.length = n) :
    ∀ (rows : List (List ℚ)) (i : Nat), (∀ r ∈ rows, r.length = cap) →
      ∀ r' ∈ assignRows n chunk b i rows, r'.length = cap := by
  intro rows
  induction rows with
  | nil => intro i _ r' hr'; simp [assignRows] at hr'
  | cons r rest ih =>
    intro i hlen r' hr'
    simp only [assignRows, List.mem_cons] at hr'
    rcases hr' with h | h
    · have hr : r.length = cap := hlen r (by simp)
      subst h
      simp [length_chunkColumn, hr, hc]
      omega
    · exact ih (i + 1) (fun s hs => hlen s (by simp [hs])) r' h

theorem updateBuffer_wf (ch cap : Nat) (buf chunk : List (List ℚ))
    (h : wfBuffer ch cap buf) : wfBuffer ch cap (updateBuffer buf chunk).1 := by
  obtain ⟨hlen, hrows⟩ := h
  have hmap : wfBuffer ch cap (buf.map (rotl chunk.length)) := by
    refine ⟨by simp [hlen], ?_⟩
    intro row hrow
    obtain ⟨r, hr, rfl⟩ := List.mem_map.1 hrow
    rw [length_rotl]
    exact hrows r hr
  rw [updateBuffer]
  split
  · exact ⟨hlen, hrows⟩
  · split
    · rename_i hnot hle
      have hle' : chunk.length ≤ cap := by
        cases buf with
        | nil =>
          have h0 : chunk.length ≠ 0 := fun h => hnot (Or.inl h)
          simp only [List.headD_nil, List.length_nil, Nat.le_zero] at hle
          omega
        | cons r rest =>
          have : r.length = cap := hrows r (by simp)
          simpa [this] using hle
      split
      · refine ⟨by rw [length_assignRows]; simp [hlen], ?_⟩
        intro r' hr'
        exact assignRows_row_length chunk.length cap chunk false hle' rfl
          (buf.map (rotl chunk.length)) 0 hmap.2 r' hr'
      · split
        · refine ⟨by rw [length_assignRows]; simp [hlen], ?_⟩
          intro r' hr'
          exact assignRows_row_length chunk.length cap chunk true hle' rfl
            (buf.map (rotl chunk.length)) 0 hmap.2 r' hr'
        · exact hmap
    · exact hmap

theorem applyChunks_wf (ch cap : Nat) :
    ∀ (chunks : List (List (List ℚ))) (buf : List (List ℚ)),
      wfBuffer ch cap buf → wfBuffer ch cap (applyChunks buf chunks) := by
  intro chunks
  induction chunks with
  | nil => intro buf h; exact h
  | cons c rest ih =>
    intro buf h
    have hstep := updateBuffer_wf ch cap buf c h
    simpa [applyChunks] using ih (updateBuffer buf c).1 hstep

theorem assignRows_getD (n : Nat) (chunk : List (List ℚ)) (b : Bool) :
    ∀ (rows : List (List ℚ)) (i j : Nat), j < rows.length →
      (assignRows n chunk b i rows).getD j []
        = ((rows.getD j []).take ((rows.getD j []).length - n))
          ++ chunkColumn chunk (if b then 0 else i + j) := by
  intro rows
  induction rows with
  | nil => intro i j h; simp at h
  | cons r rest ih =>
    intro i j h
    cases j with
    | zero => simp [assignRows]
    | succ k =>
      have hk : k < rest.length := by simpa using h
      simp only [assignRows, List.getD_cons_succ]
      rw [ih (i + 1) k hk]
      have harith : i + 1 + k = i + (k + 1) := by omega
      rw [harith]

/-- With an `fs = 50` stream the constructor builds `nfft = 256` (4 s buffer of
200 samples, rounded up to the 256 floor), whose 129 bin frequencies all lie
at or below 25 Hz, so the Gamma band `[30, 50]` selects no bin at all. -/
theorem gamma_band_empty_at_fs50 (ps : List ℚ) :
    selectByBand (rfftFreqs 256 50) ps 30 50 = [] := by
  rw [selectByBand]
  have hfil : ((rfftFreqs 256 50).zip ps).filter
      (fun p => decide ((30 : ℚ) ≤ p.1) && decide (p.1 ≤ 50)) = [] := by
    rw [List.filter_eq_nil_iff]
    intro p hp
    have hmem : p.1 ∈ rfftFreqs 256 50 := (List.of_mem_zip hp).1
    rw [rfftFreqs] at hmem
    obtain ⟨k, hk, hkeq⟩ := List.mem_map.1 hmem
    have hk' : k < 129 := by simpa using List.mem_range.1 hk
    have hkq : (k : ℚ) ≤ 128 := by exact_mod_cast Nat.le_of_lt_succ hk'
    have hle : p.1 ≤ 25 := by
      rw [← hkeq]
      push_cast
      rw [div_le_iff₀ (by norm_num : (0 : ℚ) < 256)]
      linarith
    simp only [Bool.and_eq_true, decide_eq_true_eq, not_and]
    intro h30
    linarith
  rw [hfil]
  rfl

/-! ## Claims -/

/-- Claim C1: for every band-power map with `Beta > 0` and `Theta/Beta > 2.5`,
`analyze_cognitive_state` returns state DROWSY with alert level 1, regardless
of all other band values, because rule 1 of the cascade matches first. -/
theorem drowsy_first_rule (bp : BandPowers) (hb : 0 < bp.beta)
    (hr : (5 : ℚ) / 2 < bp.theta / bp.beta) :
    (analyzeCognitiveState bp).state = "DROWSY" ∧
    (analyzeCognitiveState bp).alert_level = 1 := by
  have htbr : thetaBetaRatio bp = bp.theta / bp.beta := if_pos hb
  simp [analyzeCognitiveState, htbr, hr]

/-- Witness for C1 at the spec's example `{Theta: 10, Beta: 2, Delta: 1,
Alpha: 3, Gamma: 0.1}` (Theta/Beta = 5 > 2.5). -/
theorem drowsy_first_rule_witness :
    (analyzeCognitiveState ⟨1, 10, 3, 2, 1/10⟩).state = "DROWSY" ∧
    (analyzeCognitiveState ⟨1, 10, 3, 2, 1/10⟩).alert_level = 1 :=
  drowsy_first_rule ⟨1, 10, 3, 2, 1/10⟩ (by norm_num) (by norm_num)

/-- Claim C2: the relative powers sum to exactly 1 whenever the total power is
strictly positive, and every relative power is 0 when the total power is 0. -/
theorem relative_power_normalization (bp : BandPowers) :
    (0 < bp.total →
      (relativePowers bp).delta + (relativePowers bp).theta +
      (relativePowers bp).alpha + (relativePowers bp).beta +
      (relativePowers bp).gamma = 1) ∧
    (bp.total = 0 → relativePowers bp = ⟨0, 0, 0, 0, 0⟩) := by
  constructor
  · intro h
    have hne : bp.total ≠ 0 := ne_of_gt h
    rw [relativePowers, if_pos h]
    show bp.delta / bp.total + bp.theta / bp.total + bp.alpha / bp.total +
      bp.beta / bp.total + bp.gamma / bp.total = 1
    field_simp
    rw [BandPowers.total]
  · intro h
    have hlt : ¬ 0 < bp.total := by rw [h]; exact lt_irrefl 0
    rw [relativePowers, if_neg hlt]

/-- Witness for C2: applied at a total-power-5 map and at the all-zero map. -/
theorem relative_power_normalization_witness :
    ((relativePowers ⟨1, 1, 1, 1, 1⟩).delta + (relativePowers ⟨1, 1, 1, 1, 1⟩).theta +
     (relativePowers ⟨1, 1, 1, 1, 1⟩).alpha + (relativePowers ⟨1, 1, 1, 1, 1⟩).beta +
     (relativePowers ⟨1, 1, 1, 1, 1⟩).gamma = 1) ∧
    relativePowers ⟨0, 0, 0, 0, 0⟩ = ⟨0, 0, 0, 0, 0⟩ :=
  ⟨(relative_power_normalization ⟨1, 1, 1, 1, 1⟩).1 (by norm_num [BandPowers.total]),
   (relative_power_normalization ⟨0, 0, 0, 0, 0⟩).2 (by norm_num [BandPowers.total])⟩

/-- Claim C4: for every sequence of appended chunks with valid shapes, every
channel row of the buffer has length exactly `capacity` after every append
(here: after any prefix of the chunk sequence), and the channel count never
changes; this holds even across appends whose numpy assignment raises, since
the roll preserves every row's length. -/
theorem ringbuffer_snapshot_length_invariant (ch cap : Nat)
    (buf : List (List ℚ)) (chunks : List (List (List ℚ)))
    (hwf : wfBuffer ch cap buf)
    (hvalid : ∀ c ∈ chunks, ∀ s ∈ c, s.length = ch) (k : Nat) :
    wfBuffer ch cap (applyChunks buf (chunks.take k)) :=
  applyChunks_wf ch cap (chunks.take k) buf hwf

/-- Witness for C4: a 2-channel capacity-2 buffer, three valid chunks of
sizes 1, 2 and 3 (the last one overflowing the capacity). -/
theorem ringbuffer_snapshot_length_invariant_witness :
    wfBuffer 2 2 (applyChunks [[0, 0], [0, 0]]
      ([[[1, 2]], [[3, 4], [5, 6]], [[7, 8], [9, 10], [11, 12]]].take 3)) :=
  ringbuffer_snapshot_length_invariant 2 2 [[0, 0], [0, 0]]
    [[[1, 2]], [[3, 4], [5, 6]], [[7, 8], [9, 10], [11, 12]]]
    (by constructor <;> simp) (by simp) 3

/-- Counterexample for C3 as stated: in `EEGAnalyzer.compute_band_powers` the
Delta/Theta ratio at band powers with `Theta = 0` (denominator not positive)
is the unguarded division `Delta / 0`, a non-finite float (`none`), not `0`. -/
theorem unguarded_ratio_counterexample :
    eegDeltaThetaRatio ⟨1, 0, 1, 1, 1⟩ ≠ some 0 := by
  simp [eegDeltaThetaRatio, npDivRatio]

/-- Claim C3 (amended): the classifier's two ratios (Theta/Beta, Alpha/Beta in
`analyze_cognitive_state`) equal numerator/denominator when `Beta > 0` and `0`
otherwise, never raising; `EEGAnalyzer.compute_band_powers` instead computes
all five cross-band ratios by unguarded division, which does not raise either
but yields a non-finite float (modelled `none`) rather than `0` when the
denominator is zero, and the exact quotient when it is nonzero. -/
theorem ratio_zero_guard_cases (bp : BandPowers) :
    (0 < bp.beta →
      thetaBetaRatio bp = bp.theta / bp.beta ∧ alphaBetaRatio bp = bp.alpha / bp.beta) ∧
    (¬ 0 < bp.beta → thetaBetaRatio bp = 0 ∧ alphaBetaRatio bp = 0) ∧
    (bp.theta = 0 → eegAlphaThetaRatio bp = none ∧ eegDeltaThetaRatio bp = none) ∧
    (bp.beta = 0 → eegAlphaBetaRatio bp = none ∧ eegThetaBetaRatio bp = none) ∧
    (bp.alpha = 0 → eegGammaAlphaRatio bp = none) ∧
    (bp.theta ≠ 0 → eegDeltaThetaRatio bp = some (bp.delta / bp.theta)) := by
  refine ⟨?_, ?_, ?_, ?_, ?_, ?_⟩ <;> intro h <;>
    simp [thetaBetaRatio, alphaBetaRatio, eegAlphaThetaRatio, eegDeltaThetaRatio,
      eegAlphaBetaRatio, eegThetaBetaRatio, eegGammaAlphaRatio, npDivRatio, h]

/-- Witness for C3 (amended), at concrete band powers for each guard case. -/
theorem ratio_zero_guard_cases_witness :
    thetaBetaRatio ⟨1, 10, 3, 2, 1⟩ = 10 / 2 ∧
    thetaBetaRatio ⟨1, 1, 1, 0, 1⟩ = 0 ∧
    eegDeltaThetaRatio ⟨1, 0, 1, 1, 1⟩ = none ∧
    eegDeltaThetaRatio ⟨4, 2, 1, 1, 1⟩ = some (4 / 2) :=
  ⟨((ratio_zero_guard_cases ⟨1, 10, 3, 2, 1⟩).1 (by norm_num)).1,
   ((ratio_zero_guard_cases ⟨1, 1, 1, 0, 1⟩).2.1 (by norm_num)).1,
   ((ratio_zero_guard_cases ⟨1, 0, 1, 1, 1⟩).2.2.1 (by norm_num)).2,
   (ratio_zero_guard_cases ⟨4, 2, 1, 1, 1⟩).2.2.2.2.2 (by norm_num)⟩

/-- Counterexample for C5 as stated: appending the 3-sample single-channel
chunk `[[1],[2],[3]]` to a capacity-2 single-channel buffer holding `[9, 9]`
does not leave the buffer equal to the chunk's last 2 samples `[2, 3]` — the
numpy assignment raises a broadcast error and the buffer stays `[9, 9]` (its
prior contents rolled by 3 mod 2 = 1, which is a cyclic identity here). -/
theorem overflow_chunk_counterexample :
    (updateBuffer [[(9 : ℚ), 9]] [[1], [2], [3]]).1 ≠ [[(2 : ℚ), 3]] := by
  norm_num [updateBuffer, rotl]

/-- Claim C5 (amended): a chunk of length exactly `capacity` replaces every
channel row with the chunk's column for that channel (the whole chunk is its
own last `capacity` samples); a chunk strictly longer than `capacity` instead
makes the numpy assignment raise a broadcast error, leaving the buffer as the
cyclic rotation of its previous contents — not the chunk's last samples. -/
theorem exact_fill_and_overflow_truncation (ch cap : Nat)
    (buf chunk : List (List ℚ)) (hwf : wfBuffer ch cap buf)
    (hvalid : ∀ s ∈ chunk, s.length = ch) (hch : 0 < ch) (hcap : 0 < cap) :
    (chunk.length = cap →
      (updateBuffer buf chunk).2 = true ∧
      (updateBuffer buf chunk).1.length = ch ∧
      ∀ i, i < ch → (updateBuffer buf chunk).1.getD i [] = chunkColumn chunk i) ∧
    (cap < chunk.length →
      updateBuffer buf chunk = (buf.map (rotl chunk.length), false)) := by
  obtain ⟨hblen, hbrows⟩ := hwf
  have hwidth : (buf.headD []).length = cap := by
    cases buf with
    | nil => simp at hblen; omega
    | cons r rs => exact hbrows r (by simp)
  have hrolled : ∀ row ∈ buf.map (rotl chunk.length), row.length = cap := by
    intro row hrow
    obtain ⟨r, hr, rfl⟩ := List.mem_map.1 hrow
    rw [length_rotl]
    exact hbrows r hr
  constructor
  · intro hn
    have hcch : (chunk.headD []).length = ch := by
      cases chunk with
      | nil => rw [List.length_nil] at hn; omega
      | cons s ss => exact hvalid s (by simp)
    have hc1 : ¬(chunk.length = 0 ∨ (chunk.headD []).length = 0) := by
      push_neg
      exact ⟨by omega, by omega⟩
    have hc2 : chunk.length ≤ (buf.headD []).length := by rw [hn, hwidth]
    have hc3 : (chunk.headD []).length = buf.length := by rw [hcch, hblen]
    rw [updateBuffer, if_neg hc1, if_pos hc2, if_pos hc3]
    refine ⟨rfl, by rw [length_assignRows]; simp [hblen], ?_⟩
    intro i hi
    have hi2 : i < (buf.map (rotl chunk.length)).length := by
      simpa [hblen] using hi
    rw [assignRows_getD chunk.length chunk false (buf.map (rotl chunk.length)) 0 i hi2]
    have hmem : (buf.map (rotl chunk.length)).getD i [] ∈ buf.map (rotl chunk.length) := by
      rw [List.getD_eq_getElem (buf.map (rotl chunk.length)) [] hi2]
      exact List.getElem_mem hi2
    have hlenrow : ((buf.map (rotl chunk.length)).getD i []).length = cap :=
      hrolled _ hmem
    rw [hlenrow, hn, Nat.sub_self, List.take_zero, List.nil_append]
    norm_num
  · intro hlt
    have hcch : (chunk.headD []).length = ch := by
      cases chunk with
      | nil => rw [List.length_nil] at hlt; omega
      | cons s ss => exact hvalid s (by simp)
    have hc1 : ¬(chunk.length = 0 ∨ (chunk.headD []).length = 0) := by
      push_neg
      exact ⟨by omega, by omega⟩
    have hc2 : ¬(chunk.length ≤ (buf.headD []).length) := by
      rw [hwidth]
      omega
    rw [updateBuffer, if_neg hc1, if_neg hc2]

/-- Witness for C5 (amended): an exact-capacity chunk on a one-channel
capacity-2 buffer. -/
theorem exact_fill_and_overflow_truncation_witness :
    (updateBuffer [[(9 : ℚ), 9]] [[1], [2]]).2 = true ∧
    (updateBuffer [[(9 : ℚ), 9]] [[1], [2]]).1.getD 0 [] = [1, 2] := by
  have h := (exact_fill_and_overflow_truncation 1 2 [[(9 : ℚ), 9]] [[1], [2]]
    ⟨rfl, by simp⟩ (by simp) (by omega) (by omega)).1 rfl
  refine ⟨h.1, ?_⟩
  rw [h.2.2 0 (by omega)]
  simp [chunkColumn]

/-- Counterexample for C6 as stated: with a 50 Hz stream (so `nfft = 256` and
a maximal bin frequency of 25 Hz) no bin falls inside the Gamma band
`[30, 50]`, and the band power is not `0` — `np.mean` of the empty selection
is `nan` (modelled `none`).  The power-spectrum values (here all 1) are
irrelevant to the selection. -/
theorem gamma_band_no_bins_counterexample :
    bandPowerOf (rfftFreqs 256 50) (List.replicate 129 1) 30 50 ≠ some 0 := by
  rw [bandPowerOf, gamma_band_empty_at_fs50]
  simp [npMean]

/-- Claim C6 (amended): whenever no frequency bin of the power spectrum falls
inside a band's closed interval, the band's entry is `np.mean` of an empty
selection, which is `nan` (modelled `none`), not `0`. -/
theorem empty_band_power_is_nan (freqs ps : List ℚ) (lo hi : ℚ)
    (h : selectByBand freqs ps lo hi = []) :
    bandPowerOf freqs ps lo hi = none ∧ bandPowerOf freqs ps lo hi ≠ some 0 := by
  constructor <;> simp [bandPowerOf, npMean, h]

/-- Witness for C6 (amended) at the empty Gamma selection of a 50 Hz stream. -/
theorem empty_band_power_is_nan_witness :
    bandPowerOf (rfftFreqs 256 50) (List.replicate 129 1) 30 50 = none :=
  (empty_band_power_is_nan (rfftFreqs 256 50) (List.replicate 129 1) 30 50
    (gamma_band_empty_at_fs50 (List.replicate 129 1))).1

/-- Claim C7 (code bug): after pushing ALERT and then NORMAL (a tie, one
occurrence each), the label returned by `get_smoothed_state` depends on the
incidental iteration order of `set(self.state_history)` — the two possible
orders of the same two-element set yield different labels.  Python string
hashing is randomised per process, so the choice varies from run to run,
contradicting the required deterministic tie-break. -/
theorem tie_break_depends_on_set_order :
    ((getSmoothedState ["ALERT", "NORMAL"] ["ALERT"] ⟨"NORMAL", 2, .errMsg ""⟩).2).state
      ≠ ((getSmoothedState ["NORMAL", "ALERT"] ["ALERT"] ⟨"NORMAL", 2, .errMsg ""⟩).2).state := by
  decide

/-- Counterexample for C8 as stated: appending the chunk `[[5, 6, 7]]` (one
sample, 3 channels) to a 2-channel buffer does fail, but the buffer is not
left unchanged: `np.roll` has already run when the assignment raises, so each
row is cyclically rotated by the chunk length. -/
theorem buffer_mutated_on_shape_mismatch :
    (updateBuffer [[(1 : ℚ), 2], [3, 4]] [[5, 6, 7]]).1 ≠ [[(1 : ℚ), 2], [3, 4]] ∧
    (updateBuffer [[(1 : ℚ), 2], [3, 4]] [[5, 6, 7]]).2 = false := by
  constructor <;> norm_num [updateBuffer, rotl]

/-- Claim C8 (amended): a chunk whose per-sample channel count differs from
the buffer's channel count (and is not 1, which numpy would broadcast) makes
the slice assignment raise a broadcast error — there is no `InvalidInputError`
anywhere in the code — and the roll has already replaced the buffer, so the
buffer is left cyclically rotated, not unchanged; `get_current_state` catches
the exception and converts the tick into the ERROR sentinel with alert level
1 and a cleared connectivity flag, rather than silently skipping it. -/
theorem shape_mismatch_rolls_then_errors (bpFn : List ℚ → BandPowers)
    (order : List String) (st : Monitor) (chunk : List (List ℚ)) (now : ℚ)
    (hn : chunk.length ≠ 0) (hc0 : (chunk.headD []).length ≠ 0)
    (hle : chunk.length ≤ (st.buffer.headD []).length)
    (hch : (chunk.headD []).length ≠ st.buffer.length)
    (h1 : (chunk.headD []).length ≠ 1) :
    updateBuffer st.buffer chunk = (st.buffer.map (rotl chunk.length), false) ∧
    getCurrentState bpFn order st (.ok chunk) now =
      ({ st with buffer := st.buffer.map (rotl chunk.length), connected := false },
       some ⟨"ERROR", 1, .errMsg broadcastErrorMsg⟩) := by
  have hupd : updateBuffer st.buffer chunk = (st.buffer.map (rotl chunk.length), false) := by
    rw [updateBuffer, if_neg (by push_neg; exact ⟨hn, hc0⟩), if_pos hle, if_neg hch,
      if_neg h1]
  have hempty : chunk.isEmpty = false := by
    cases chunk with
    | nil => simp at hn
    | cons a l => rfl
  exact ⟨hupd, by simp [getCurrentState, tickBody, hempty, hupd]⟩

/-- Witness for C8 (amended) at a concrete 2-channel monitor and a 3-channel
sample chunk. -/
theorem shape_mismatch_rolls_then_errors_witness :
    getCurrentState (fun _ => ⟨0, 0, 0, 0, 0⟩) []
        ⟨2, [[(1 : ℚ), 2], [3, 4]], 0, [], true⟩ (.ok [[5, 6, 7]]) 0 =
      (⟨2, [[(2 : ℚ), 1], [4, 3]], 0, [], false⟩,
       some ⟨"ERROR", 1, .errMsg broadcastErrorMsg⟩) := by
  have h := (shape_mismatch_rolls_then_errors (fun _ => ⟨0, 0, 0, 0, 0⟩) []
    ⟨2, [[(1 : ℚ), 2], [3, 4]], 0, [], true⟩ [[5, 6, 7]] 0
    (by simp) (by simp) (by simp) (by simp) (by simp)).2
  rw [h]
  norm_num [rotl]

/-- Claim C9: when the pull from the sample source fails, `get_current_state`
catches the exception and returns the sentinel result with state ERROR and
alert level 1, and `is_device_connected` subsequently reports `false`. -/
theorem pull_fault_returns_error_sentinel (bpFn : List ℚ → BandPowers)
    (order : List String) (st : Monitor) (e : String) (now : ℚ) :
    getCurrentState bpFn order st (.error e) now =
      ({ st with connected := false }, some ⟨"ERROR", 1, .errMsg e⟩) ∧
    isDeviceConnected (getCurrentState bpFn order st (.error e) now).1 = false := by
  constructor <;> simp [getCurrentState, isDeviceConnected]

/-- Claim C10: smoothing replaces only the `state` field — for every smoother
input, the emitted `alert_level` and `details` are exactly those of the raw
classification of the current tick; concretely, a raw DROWSY (level 1) pushed
onto a NORMAL-majority history is emitted as state NORMAL while keeping the
raw alert level 1. -/
theorem smoothing_replaces_only_state (order history : List String)
    (cur : StateInfo) :
    ((getSmoothedState order history cur).2).alert_level = cur.alert_level ∧
    ((getSmoothedState order history cur).2).details = cur.details ∧
    ((getSmoothedState ["NORMAL", "DROWSY"] ["NORMAL", "NORMAL"]
        ⟨"DROWSY", 1, .errMsg ""⟩).2).state = "NORMAL" ∧
    ((getSmoothedState ["NORMAL", "DROWSY"] ["NORMAL", "NORMAL"]
        ⟨"DROWSY", 1, .errMsg ""⟩).2).alert_level = 1 := by
  exact ⟨rfl, rfl, by decide, rfl⟩

end Cognition
